import Mathlib

/-!
Verification of the apt-analysis-mcp repository: a shallow embedding of
`tools/sample_downloader.py`, `tools/rule_hash_query.py` and `server.py`,
together with theorems settling the specification's claims about them.
-/

/-! ## Remote command executor: `SampleDownloaderAPI._run_ssh_command` -/

/-- Outcome of one transport-level attempt of the relayed SSH command:
the subprocess either returns a `(returncode, stdout, stderr)` triple,
raises `subprocess.TimeoutExpired`, or raises some other exception
carrying a message. -/
inductive AttemptOutcome where
  | done : Int → String → String → AttemptOutcome
  | timeout : AttemptOutcome
  | exc : String → AttemptOutcome
deriving DecidableEq, Repr

/-- An attempt outcome that the retry loop retries (any raised exception);
a returned triple is not retried. -/
def attemptRetryable : AttemptOutcome → Bool
  | .done _ _ _ => false
  | .timeout => true
  | .exc _ => true

/-- What the last loop iteration returns for a given attempt outcome:
the triple itself when the subprocess returned, `(-1, "", <timeout message>)`
on `TimeoutExpired`, and `(-1, "", str(e))` on any other exception. -/
def finalAttemptResult : AttemptOutcome → Int × String × String
  | .done rc out err => (rc, out, err)
  | .timeout => (-1, "", "SSH命令执行超时")
  | .exc e => (-1, "", e)

/-- The `for attempt in range(max_retries)` loop of `_run_ssh_command`,
started at iteration `attempt`. `transport i` is the outcome of the
`subprocess.run` call on attempt `i`. Returns the value the function
returns (`none` models Python falling off the loop and returning `None`),
the number of transport invocations made, and the list of sleep durations
performed between attempts. -/
def runSshCommandFrom (transport : Nat → AttemptOutcome) (maxRetries : Nat)
    (attempt : Nat) : Option (Int × String × String) × Nat × List Nat :=
  if attempt < maxRetries then
    match transport attempt with
    | .done rc out err => (some (rc, out, err), 1, [])
    | .timeout =>
        if attempt < maxRetries - 1 then
          let rest := runSshCommandFrom transport maxRetries (attempt + 1)
          (rest.1, rest.2.1 + 1, 5 :: rest.2.2)
        else
          (some (-1, "", "SSH命令执行超时"), 1, [])
    | .exc e =>
        if attempt < maxRetries - 1 then
          let rest := runSshCommandFrom transport maxRetries (attempt + 1)
          (rest.1, rest.2.1 + 1, 5 :: rest.2.2)
        else
          (some (-1, "", e), 1, [])
  else
    (none, 0, [])
termination_by maxRetries - attempt

/-- `SampleDownloaderAPI._run_ssh_command`: runs the relayed command with
`max_retries` bounded retries. `max_retries` is an arbitrary Python integer;
`range(max_retries)` iterates `max max_retries 0` times, which `Int.toNat`
models. -/
def run_ssh_command (transport : Nat → AttemptOutcome) (max_retries : Int) :
    Option (Int × String × String) × Nat × List Nat :=
  runSshCommandFrom transport max_retries.toNat 0

/-- A transport that times out once and then returns exit code 0. -/
def witnessTransportC1 : Nat → AttemptOutcome :=
  fun i => if i = 0 then .timeout else .done 0 "ok" ""

/-- A transport that always times out. -/
def witnessTransportC9 : Nat → AttemptOutcome :=
  fun _ => .timeout

/-! ## Sample download orchestrator: `SampleDownloaderAPI.download_samples` -/

/-- A download request: the parameters of `download_samples`. -/
structure DownloadRequest where
  hash_list : List String
  local_output_dir : String
  output_dirname : String
  cleanup_remote : Bool
  flat_output : Bool

/-- Behaviour of the external world during one `download_samples` call:
results of the transport operations (`_upload_file`, `_run_ssh_command` for
the collection script, `_download_directory`, `_run_ssh_command` for remote
cleanup), the `os.path.abspath` normalisation, whether `os.makedirs` on the
local output directory raises, the entries `os.listdir` reports in the
scratch download, and whether the `shutil.move` loop raises.
`initialFiles` is the list of file names already present in the local
output directory before the call. -/
structure DownloadEnv where
  uploadOk : Bool
  uploadErr : String
  collectRc : Int
  collectOut : String
  collectErr : String
  abspath : String → String
  makedirsError : Option String
  downloadOk : Bool
  downloadErr : String
  listdirResult : List String
  moveError : Option String
  cleanupRc : Int
  cleanupErr : String
  initialFiles : List String

/-- Observable outcome of one `download_samples` call: the returned
`(success, local_path, error)` triple plus a trace of the effects the call
performed (temp hash-list file created/deleted, which remote operations
were invoked and with which timeout, scratch directory lifecycle, and the
final contents of the local output directory). -/
structure DownloadOutcome where
  result : Bool × String × String
  tempCreated : Bool
  tempDeleted : Bool
  uploadInvoked : Bool
  collectInvoked : Bool
  collectTimeout : Option Int
  downloadDirInvoked : Bool
  remoteCleanupInvoked : Bool
  scratchCreated : Bool
  scratchRemoved : Bool
  finalOutputFiles : List String

/-- `SampleDownloaderAPI.download_samples`, translated exit path by exit
path. The top-level `except Exception` turns a raised local filesystem
error (`os.makedirs`, `shutil.move`) into the `(False, "", "任务执行异常: " +
str(e))` return without reaching the explicit-cleanup statements, which is
why `tempDeleted` is `false` on those two paths. -/
def download_samples (env : DownloadEnv) (req : DownloadRequest) : DownloadOutcome :=
  if req.hash_list.isEmpty then
    { result := (false, "", "hash列表不能为空"),
      tempCreated := false, tempDeleted := false,
      uploadInvoked := false, collectInvoked := false, collectTimeout := none,
      downloadDirInvoked := false, remoteCleanupInvoked := false,
      scratchCreated := false, scratchRemoved := false,
      finalOutputFiles := env.initialFiles }
  else if env.uploadOk = false then
    { result := (false, "", "上传hash文件失败: " ++ env.uploadErr),
      tempCreated := true, tempDeleted := true,
      uploadInvoked := true, collectInvoked := false, collectTimeout := none,
      downloadDirInvoked := false, remoteCleanupInvoked := false,
      scratchCreated := false, scratchRemoved := false,
      finalOutputFiles := env.initialFiles }
  else if env.collectRc ≠ 0 then
    { result := (false, "", "下载脚本执行失败: " ++ env.collectErr),
      tempCreated := true, tempDeleted := true,
      uploadInvoked := true, collectInvoked := true, collectTimeout := some 600,
      downloadDirInvoked := false, remoteCleanupInvoked := false,
      scratchCreated := false, scratchRemoved := false,
      finalOutputFiles := env.initialFiles }
  else
    match env.makedirsError with
    | some e =>
      { result := (false, "", "任务执行异常: " ++ e),
        tempCreated := true, tempDeleted := false,
        uploadInvoked := true, collectInvoked := true, collectTimeout := some 600,
        downloadDirInvoked := false, remoteCleanupInvoked := false,
        scratchCreated := false, scratchRemoved := false,
        finalOutputFiles := env.initialFiles }
    | none =>
      if req.flat_output then
        if env.downloadOk = false then
          { result := (false, "", "下载文件失败: " ++ env.downloadErr),
            tempCreated := true, tempDeleted := true,
            uploadInvoked := true, collectInvoked := true, collectTimeout := some 600,
            downloadDirInvoked := true, remoteCleanupInvoked := false,
            scratchCreated := true, scratchRemoved := true,
            finalOutputFiles := env.initialFiles }
        else
          match env.moveError with
          | some e =>
            { result := (false, "", "任务执行异常: " ++ e),
              tempCreated := true, tempDeleted := false,
              uploadInvoked := true, collectInvoked := true, collectTimeout := some 600,
              downloadDirInvoked := true, remoteCleanupInvoked := false,
              scratchCreated := true, scratchRemoved := false,
              finalOutputFiles := env.initialFiles }
          | none =>
            { result := (true, env.abspath req.local_output_dir, ""),
              tempCreated := true, tempDeleted := true,
              uploadInvoked := true, collectInvoked := true, collectTimeout := some 600,
              downloadDirInvoked := true, remoteCleanupInvoked := req.cleanup_remote,
              scratchCreated := true, scratchRemoved := true,
              finalOutputFiles := env.listdirResult ++
                env.initialFiles.filter (fun f => ! env.listdirResult.contains f) }
      else
        if env.downloadOk = false then
          { result := (false, "", "下载文件失败: " ++ env.downloadErr),
            tempCreated := true, tempDeleted := true,
            uploadInvoked := true, collectInvoked := true, collectTimeout := some 600,
            downloadDirInvoked := true, remoteCleanupInvoked := false,
            scratchCreated := false, scratchRemoved := false,
            finalOutputFiles := env.initialFiles }
        else
          { result := (true, env.abspath req.local_output_dir ++ "/" ++ req.output_dirname, ""),
            tempCreated := true, tempDeleted := true,
            uploadInvoked := true, collectInvoked := true, collectTimeout := some 600,
            downloadDirInvoked := true, remoteCleanupInvoked := req.cleanup_remote,
            scratchCreated := false, scratchRemoved := false,
            finalOutputFiles := env.initialFiles }

/-- An environment in which every external operation succeeds. -/
def happyEnv : DownloadEnv where
  uploadOk := true
  uploadErr := ""
  collectRc := 0
  collectOut := "collected"
  collectErr := ""
  abspath := fun s => "/abs/" ++ s
  makedirsError := none
  downloadOk := true
  downloadErr := ""
  listdirResult := ["s1.bin", "s2.bin"]
  moveError := none
  cleanupRc := 0
  cleanupErr := ""
  initialFiles := ["keep.txt"]

/-- `happyEnv` but `os.makedirs` on the local output directory raises. -/
def envMakedirsRaises : DownloadEnv :=
  { happyEnv with makedirsError := some "Permission denied" }

/-- `happyEnv` but the hash-file upload fails. -/
def envUploadFails : DownloadEnv :=
  { happyEnv with uploadOk := false, uploadErr := "scp: connection refused" }

/-- `happyEnv` but the remote collection script exits nonzero. -/
def envCollectFails : DownloadEnv :=
  { happyEnv with collectRc := 1, collectErr := "obs_collect_new.py: not found" }

/-- `happyEnv` with `os.path.abspath` the identity (an already-absolute
output directory). -/
def envIdAbspath : DownloadEnv :=
  { happyEnv with abspath := fun s => s }

/-- A flat-output request with one hash. -/
def reqFlat : DownloadRequest where
  hash_list := ["a1b2"]
  local_output_dir := "/data/out"
  output_dirname := "samples"
  cleanup_remote := true
  flat_output := true

/-- A nested-output request with one hash. -/
def reqNested : DownloadRequest :=
  { reqFlat with flat_output := false }

/-- An empty-hash-list request. -/
def reqEmpty : DownloadRequest :=
  { reqFlat with hash_list := [] }

/-! ## Rule-to-hash lookup: `tools/rule_hash_query.py` and `server.py` -/

/-- One row of `Rule_Hash_Mapping.csv`: columns `rule`, `namespace` (field
`ns` here, `namespace` being a Lean keyword) and `sha256List`. -/
structure CsvRow where
  rule : String
  ns : String
  sha256List : String
deriving DecidableEq, Repr

/-- The `RuleHashQuery.mapping` Python dict, modelled as an
insertion-ordered association list whose keys are unique, as in a Python
dict. -/
abbrev RuleMapping := List ((String × String) × String)

/-- `self.mapping[key] = value` on a Python dict: an existing key keeps its
position and gets the new value; a new key is appended at the end. -/
def dictInsert (m : RuleMapping) (k : String × String) (v : String) : RuleMapping :=
  if m.any (fun e => decide (e.1 = k)) then
    m.map (fun e => if e.1 = k then (k, v) else e)
  else
    m ++ [(k, v)]

/-- `key in self.mapping` / `self.mapping[key]`: the (unique) binding of
the key, if present. -/
def dictFind (m : RuleMapping) (k : String × String) : Option String :=
  (m.find? (fun e => decide (e.1 = k))).map (fun e => e.2)

/-- `RuleHashQuery._load_mapping`: insert each CSV row into the dict in
file order, so a later row with a duplicate `(rule, namespace)` key
overwrites the earlier binding. -/
def load_mapping (rows : List CsvRow) : RuleMapping :=
  rows.foldl (fun m row => dictInsert m (row.rule, row.ns) row.sha256List) []

/-- The value of the last row in file order bearing a given
`(rule, namespace)` key, if any. -/
def lastValueFor (rows : List CsvRow) (k : String × String) : Option String :=
  ((rows.filter (fun r => decide ((r.rule, r.ns) = k))).getLast?).map
    (fun r => r.sha256List)

/-- `sha256_str.split(sep)` over the character sequence: splitting the
empty string yields one empty fragment, exactly as in Python. -/
def splitOnChar (sep : Char) : List Char → List (List Char)
  | [] => [[]]
  | c :: cs =>
    match splitOnChar sep cs with
    | [] => [[]]
    | g :: gs => if c = sep then [] :: g :: gs else (c :: g) :: gs

/-- `h.strip()`: drop leading and trailing whitespace characters. -/
def trimChars (l : List Char) : List Char :=
  ((l.dropWhile Char.isWhitespace).reverse.dropWhile Char.isWhitespace).reverse

/-- The per-entry hash parsing of `RuleHashQuery.query`:
`[h.strip() for h in sha256_str.split(',') if h.strip()]` — split on
commas, strip whitespace, keep the fragments that are non-empty (a
stripped fragment is falsy exactly when it is the empty string). -/
def parseHashes (s : String) : List String :=
  ((splitOnChar ',' s.data).map (fun l => String.mk (trimChars l))).filter
    (fun h => decide (h ≠ ""))

/-- Python truthiness of the optional `namespace` argument of `query`:
`None` and the empty string are falsy. -/
def namespaceTruthy : Option String → Bool
  | none => false
  | some s => decide (s ≠ "")

/-- `RuleHashQuery.query`: exact `(rule, namespace)` lookup when a truthy
namespace is given, otherwise a linear scan over all entries whose rule
component matches. -/
def query (m : RuleMapping) (rule : String) (ns : Option String) :
    List (String × String × List String) :=
  if namespaceTruthy ns then
    match dictFind m (rule, ns.getD "") with
    | some sha256_str => [(rule, ns.getD "", parseHashes sha256_str)]
    | none => []
  else
    (m.filter (fun e => decide (e.1.1 = rule))).map
      (fun e => (e.1.1, e.1.2, parseHashes e.2))

/-- `RuleHashQuery.get_sha256_list`: flatten the matched entries' hash
lists and deduplicate via `list(set(...))`; the Python set iteration order
is unspecified, `List.dedup` realises one duplicate-free order. -/
def get_sha256_list (m : RuleMapping) (rule : String) (ns : Option String) :
    List String :=
  (((query m rule ns).map (fun r => r.2.2)).flatten).dedup

/-- The dict returned by the `get_rule_sha256_list` MCP tool of
`server.py`. -/
structure ToolResult where
  success : Bool
  sha256_hashes : List String
  count : Nat
  error : Option String
deriving DecidableEq, Repr

/-- `server.get_rule_sha256_list`: `rule_query` is `none` when loading the
mapping failed at startup; an empty hash list is reported as a failure
with a "no hashes found" error. -/
def get_rule_sha256_list (rule_query : Option RuleMapping) (rule : String)
    (ns : Option String) : ToolResult :=
  match rule_query with
  | none =>
    { success := false, sha256_hashes := [], count := 0,
      error := some "Rule hash mapping not loaded. Please ensure Rule_Hash_Mapping.csv exists." }
  | some m =>
    if (get_sha256_list m rule ns).isEmpty then
      { success := false, sha256_hashes := [], count := 0,
        error := some ("No SHA256 hashes found for rule: " ++ rule) }
    else
      { success := true, sha256_hashes := get_sha256_list m rule ns,
        count := (get_sha256_list m rule ns).length, error := none }

/-- The two-entry mapping of the specification's example. -/
def exampleMapping : RuleMapping :=
  [(("RULE_A", "ns1"), "h1,h2"), (("RULE_A", "ns2"), "h2,h3")]

/-- CSV rows containing a duplicated `(rule, namespace)` key. -/
def dupRows : List CsvRow :=
  [⟨"RULE_A", "ns1", "h1"⟩, ⟨"RULE_B", "ns1", "h2"⟩, ⟨"RULE_A", "ns1", "h3"⟩]

theorem runSshCommandFrom_succeeds (transport : Nat → AttemptOutcome)
    (maxRetries : Nat) (rc : Int) (out err : String) (a k : Nat)
    (hak : a ≤ k) (hk : k < maxRetries)
    (hretry : ∀ i, a ≤ i → i < k → attemptRetryable (transport i) = true)
    (hdone : transport k = .done rc out err) :
    runSshCommandFrom transport maxRetries a =
      (some (rc, out, err), k + 1 - a, List.replicate (k - a) 5) := by
  rcases Nat.eq_or_lt_of_le hak with hka | hlt
  · subst hka
    rw [runSshCommandFrom]
    simp only [hk, if_pos, hdone]
    simp
  · have hmr : a < maxRetries := by omega
    have hr := hretry a (Nat.le_refl a) hlt
    rw [runSshCommandFrom]
    simp only [hmr, if_pos]
    have hlast : a < maxRetries - 1 := by omega
    have hrec := runSshCommandFrom_succeeds transport maxRetries rc out err
      (a + 1) k (by omega) hk
      (fun i h1 h2 => hretry i (by omega) h2) hdone
    have h1 : k + 1 - (a + 1) + 1 = k + 1 - a := by omega
    have h2 : 5 :: List.replicate (k - (a + 1)) 5 = List.replicate (k - a) 5 := by
      have h3 : k - a = (k - (a + 1)) + 1 := by omega
      rw [h3, List.replicate_succ]
    cases hta : transport a with
    | done rc' out' err' =>
      rw [hta] at hr
      simp [attemptRetryable] at hr
    | timeout =>
      simp only [hlast, if_pos]
      rw [hrec]
      simp [h1, h2]
      omega
    | exc e =>
      simp only [hlast, if_pos]
      rw [hrec]
      simp [h1, h2]
      omega
termination_by k - a

theorem runSshCommandFrom_exhausts (transport : Nat → AttemptOutcome)
    (maxRetries : Nat) (a : Nat) (ha : a < maxRetries)
    (hretry : ∀ i, a ≤ i → i < maxRetries - 1 → attemptRetryable (transport i) = true) :
    runSshCommandFrom transport maxRetries a =
      (some (finalAttemptResult (transport (maxRetries - 1))), maxRetries - a,
        List.replicate (maxRetries - 1 - a) 5) := by
  rcases Nat.lt_or_ge a (maxRetries - 1) with hlt | hge
  · rw [runSshCommandFrom]
    simp only [ha, if_pos, hlt]
    have hr := hretry a (Nat.le_refl a) hlt
    have hrec := runSshCommandFrom_exhausts transport maxRetries (a + 1) (by omega)
      (fun i h1 h2 => hretry i (by omega) h2)
    have h1 : maxRetries - (a + 1) + 1 = maxRetries - a := by omega
    have h2 : 5 :: List.replicate (maxRetries - 1 - (a + 1)) 5 =
        List.replicate (maxRetries - 1 - a) 5 := by
      have h3 : maxRetries - 1 - a = (maxRetries - 1 - (a + 1)) + 1 := by omega
      rw [h3, List.replicate_succ]
    cases hta : transport a with
    | done rc out err =>
      rw [hta] at hr
      simp [attemptRetryable] at hr
    | timeout =>
      rw [hrec]
      simp [h1, h2]
    | exc e =>
      rw [hrec]
      simp [h1, h2]
  · have hka : a = maxRetries - 1 := by omega
    rw [runSshCommandFrom]
    simp only [ha, if_pos]
    have hnr : ¬ a < maxRetries - 1 := by omega
    cases hta : transport a with
    | done rc out err =>
      rw [← hka, hta]
      simp [finalAttemptResult]
      omega
    | timeout =>
      simp only [hnr, if_neg, if_false]
      rw [← hka, hta]
      simp [finalAttemptResult]
      omega
    | exc e =>
      simp only [hnr, if_neg, if_false]
      rw [← hka, hta]
      simp [finalAttemptResult]
      omega
termination_by maxRetries - 1 - a

/-- C1: with `max_retries ≥ 1`, (a) if the transport times out on the first
`k < max_retries` attempts and then returns a triple, `_run_ssh_command`
returns that triple after exactly `k+1` transport invocations with a 5-second
sleep between consecutive attempts; (b) if every attempt times out it returns
`(-1, "", "SSH命令执行超时")` after exactly `max_retries` invocations; (c) if
every attempt raises a non-timeout exception, the attempts are retried the
same way and the last message is surfaced as `(-1, "", msg)`. -/
theorem run_ssh_command_retry_policy (transport : Nat → AttemptOutcome)
    (max_retries : Int) (hmr : 1 ≤ max_retries) :
    (∀ k rc out err, k < max_retries.toNat →
       (∀ i, i < k → transport i = .timeout) →
       transport k = .done rc out err →
       run_ssh_command transport max_retries =
         (some (rc, out, err), k + 1, List.replicate k 5)) ∧
    ((∀ i, i < max_retries.toNat → transport i = .timeout) →
       run_ssh_command transport max_retries =
         (some (-1, "", "SSH命令执行超时"), max_retries.toNat,
           List.replicate (max_retries.toNat - 1) 5)) ∧
    (∀ msgs : Nat → String,
       (∀ i, i < max_retries.toNat → transport i = .exc (msgs i)) →
       run_ssh_command transport max_retries =
         (some (-1, "", msgs (max_retries.toNat - 1)), max_retries.toNat,
           List.replicate (max_retries.toNat - 1) 5)) := by
  have hpos : 0 < max_retries.toNat := by omega
  refine ⟨?_, ?_, ?_⟩
  · intro k rc out err hk hto hdone
    have := runSshCommandFrom_succeeds transport max_retries.toNat rc out err
      0 k (Nat.zero_le k) hk
      (fun i _ hik => by rw [hto i hik]; rfl) hdone
    simpa [run_ssh_command] using this
  · intro hall
    have := runSshCommandFrom_exhausts transport max_retries.toNat 0 hpos
      (fun i _ hi => by rw [hall i (by omega)]; rfl)
    rw [run_ssh_command, this, hall (max_retries.toNat - 1) (by omega)]
    simp [finalAttemptResult]
  · intro msgs hall
    have := runSshCommandFrom_exhausts transport max_retries.toNat 0 hpos
      (fun i _ hi => by rw [hall i (by omega)]; rfl)
    rw [run_ssh_command, this, hall (max_retries.toNat - 1) (by omega)]
    simp [finalAttemptResult]

/-- Witness for C1: with a transport that times out once then succeeds and
`max_retries = 3`, the executor returns the success triple after 2
invocations with one 5-second sleep. -/
theorem run_ssh_command_retry_policy_witness :
    run_ssh_command witnessTransportC1 3 =
      (some (0, "ok", ""), 1 + 1, List.replicate 1 5) :=
  (run_ssh_command_retry_policy witnessTransportC1 3 (by norm_num)).1
    1 0 "ok" "" (by decide)
    (fun i hi => by
      have h0 : i = 0 := by omega
      subst h0
      rfl) (by rfl)

theorem runSshCommandFrom_isSome (transport : Nat → AttemptOutcome)
    (maxRetries : Nat) (a : Nat) (ha : a < maxRetries) :
    (runSshCommandFrom transport maxRetries a).1.isSome = true := by
  rw [runSshCommandFrom]
  simp only [ha, if_pos]
  cases transport a with
  | done rc out err => rfl
  | timeout =>
    by_cases hlast : a < maxRetries - 1
    · simp only [hlast, if_pos]
      exact runSshCommandFrom_isSome transport maxRetries (a + 1) (by omega)
    · simp [hlast]
  | exc e =>
    by_cases hlast : a < maxRetries - 1
    · simp only [hlast, if_pos]
      exact runSshCommandFrom_isSome transport maxRetries (a + 1) (by omega)
    · simp [hlast]
termination_by maxRetries - a

/-- C9: the `(exit_code, stdout, stderr)` contract of `_run_ssh_command`
holds only under the implicit precondition `max_retries ≥ 1`: for
`max_retries ≤ 0` the `for` loop runs zero iterations and the function
returns Python `None` (no triple, no transport invocation); for
`max_retries ≥ 1` it always returns a triple. -/
theorem run_ssh_command_needs_positive_retries
    (transport : Nat → AttemptOutcome) (max_retries : Int) :
    (max_retries ≤ 0 →
       run_ssh_command transport max_retries = (none, 0, [])) ∧
    (1 ≤ max_retries →
       ∃ t, (run_ssh_command transport max_retries).1 = some t) := by
  constructor
  · intro hle
    have h0 : max_retries.toNat = 0 := by omega
    rw [run_ssh_command, h0, runSshCommandFrom]
    simp
  · intro hge
    have hpos : 0 < max_retries.toNat := by omega
    have := runSshCommandFrom_isSome transport max_retries.toNat 0 hpos
    rw [run_ssh_command]
    exact Option.isSome_iff_exists.mp this

/-- Witness for C9: at `max_retries = 0` the executor returns `None` having
never invoked the transport; at `max_retries = 3` it returns a triple. -/
theorem run_ssh_command_needs_positive_retries_witness :
    run_ssh_command witnessTransportC9 0 = (none, 0, []) ∧
    ∃ t, (run_ssh_command witnessTransportC9 3).1 = some t :=
  ⟨(run_ssh_command_needs_positive_retries witnessTransportC9 0).1 (by norm_num),
   (run_ssh_command_needs_positive_retries witnessTransportC9 3).2 (by norm_num)⟩

theorem string_append_ne_empty (s t : String) (h : s ≠ "") : s ++ t ≠ "" := by
  intro hc
  apply h
  have hd := congrArg String.length hc
  rw [String.length_append] at hd
  have h0 : ("" : String).length = 0 := rfl
  have hz : s.length = 0 := by omega
  cases s with
  | mk data =>
    cases data with
    | nil => rfl
    | cons c cs => simp [String.length] at hz

/-- C3: for every non-empty hash list (and an `os.path.abspath` that, as in
Python, never returns the empty string on the given directory),
`download_samples` returns exactly one of two mutually exclusive shapes:
success with a non-empty local path and empty error, or failure with an
empty path and a non-empty error; every raised exception is caught at the
top level and converted to the failure shape, so no third shape is
reachable. -/
theorem download_samples_result_shape (env : DownloadEnv) (req : DownloadRequest)
    (hne : req.hash_list ≠ [])
    (habs : env.abspath req.local_output_dir ≠ "") :
    Xor' ((download_samples env req).result.1 = true ∧
          (download_samples env req).result.2.1 ≠ "" ∧
          (download_samples env req).result.2.2 = "")
         ((download_samples env req).result.1 = false ∧
          (download_samples env req).result.2.1 = "" ∧
          (download_samples env req).result.2.2 ≠ "") := by
  have hne' : ¬(req.hash_list.isEmpty = true) := by
    cases hl : req.hash_list with
    | nil => exact absurd hl hne
    | cons a l => simp
  unfold download_samples
  rw [if_neg hne']
  by_cases hu : env.uploadOk = false
  · rw [if_pos hu]
    exact Or.inr ⟨⟨rfl, rfl, string_append_ne_empty _ _ (by decide)⟩,
      fun hA => Bool.noConfusion hA.1⟩
  · rw [if_neg hu]
    by_cases hc : env.collectRc ≠ 0
    · rw [if_pos hc]
      exact Or.inr ⟨⟨rfl, rfl, string_append_ne_empty _ _ (by decide)⟩,
        fun hA => Bool.noConfusion hA.1⟩
    · rw [if_neg hc]
      cases hmk : env.makedirsError with
      | some e =>
        exact Or.inr ⟨⟨rfl, rfl, string_append_ne_empty _ _ (by decide)⟩,
          fun hA => Bool.noConfusion hA.1⟩
      | none =>
        cases hf : req.flat_output with
        | true =>
          rw [if_pos (rfl : (true : Bool) = true)]
          by_cases hd : env.downloadOk = false
          · rw [if_pos hd]
            exact Or.inr ⟨⟨rfl, rfl, string_append_ne_empty _ _ (by decide)⟩,
              fun hA => Bool.noConfusion hA.1⟩
          · rw [if_neg hd]
            cases hmv : env.moveError with
            | some e =>
              exact Or.inr ⟨⟨rfl, rfl, string_append_ne_empty _ _ (by decide)⟩,
                fun hA => Bool.noConfusion hA.1⟩
            | none =>
              exact Or.inl ⟨⟨rfl, habs, rfl⟩,
                fun hB => Bool.noConfusion hB.1⟩
        | false =>
          rw [if_neg (Bool.false_ne_true)]
          by_cases hd : env.downloadOk = false
          · rw [if_pos hd]
            exact Or.inr ⟨⟨rfl, rfl, string_append_ne_empty _ _ (by decide)⟩,
              fun hA => Bool.noConfusion hA.1⟩
          · rw [if_neg hd]
            exact Or.inl ⟨⟨rfl,
              string_append_ne_empty _ _ (string_append_ne_empty _ _ habs), rfl⟩,
              fun hB => Bool.noConfusion hB.1⟩

/-- Witness for C3: with every external step succeeding and a flat-output
request, the result has exactly the success shape. -/
theorem download_samples_result_shape_witness :
    Xor' ((download_samples happyEnv reqFlat).result.1 = true ∧
          (download_samples happyEnv reqFlat).result.2.1 ≠ "" ∧
          (download_samples happyEnv reqFlat).result.2.2 = "")
         ((download_samples happyEnv reqFlat).result.1 = false ∧
          (download_samples happyEnv reqFlat).result.2.1 = "" ∧
          (download_samples happyEnv reqFlat).result.2.2 ≠ "") :=
  download_samples_result_shape happyEnv reqFlat (by decide) (by decide)

/-- C4: on an empty hash list `download_samples` fails immediately with the
"hash list cannot be empty" message, creates no local temporary file, and
performs no remote operation (no upload, no collection command, no directory
download, no remote cleanup). -/
theorem download_samples_empty_list (env : DownloadEnv) (req : DownloadRequest)
    (h : req.hash_list = []) :
    (download_samples env req).result = (false, "", "hash列表不能为空") ∧
    (download_samples env req).tempCreated = false ∧
    (download_samples env req).uploadInvoked = false ∧
    (download_samples env req).collectInvoked = false ∧
    (download_samples env req).downloadDirInvoked = false ∧
    (download_samples env req).remoteCleanupInvoked = false := by
  simp [download_samples, h]

/-- Witness for C4: the empty request against the all-success environment. -/
theorem download_samples_empty_list_witness :
    (download_samples happyEnv reqEmpty).result = (false, "", "hash列表不能为空") ∧
    (download_samples happyEnv reqEmpty).tempCreated = false ∧
    (download_samples happyEnv reqEmpty).uploadInvoked = false ∧
    (download_samples happyEnv reqEmpty).collectInvoked = false ∧
    (download_samples happyEnv reqEmpty).downloadDirInvoked = false ∧
    (download_samples happyEnv reqEmpty).remoteCleanupInvoked = false :=
  download_samples_empty_list happyEnv reqEmpty (by decide)

/-- C5: the orchestration aborts on first failure: a failed upload deletes
the local temp file, returns failure carrying the upload error, and never
invokes the remote collection command; a nonzero exit of the collection
command (which is run with a 600-second timeout) deletes the local temp
file, returns failure carrying the remote stderr, and never attempts the
directory download. -/
theorem download_samples_abort_on_first_failure (env : DownloadEnv)
    (req : DownloadRequest) (hne : req.hash_list ≠ []) :
    (env.uploadOk = false →
       (download_samples env req).result =
         (false, "", "上传hash文件失败: " ++ env.uploadErr) ∧
       (download_samples env req).tempDeleted = true ∧
       (download_samples env req).collectInvoked = false ∧
       (download_samples env req).downloadDirInvoked = false) ∧
    (env.uploadOk = true → env.collectRc ≠ 0 →
       (download_samples env req).result =
         (false, "", "下载脚本执行失败: " ++ env.collectErr) ∧
       (download_samples env req).tempDeleted = true ∧
       (download_samples env req).collectTimeout = some 600 ∧
       (download_samples env req).downloadDirInvoked = false) := by
  have hne' : ¬(req.hash_list.isEmpty = true) := by
    cases hl : req.hash_list with
    | nil => exact absurd hl hne
    | cons a l => simp
  constructor
  · intro hu
    unfold download_samples
    rw [if_neg hne', if_pos hu]
    exact ⟨rfl, rfl, rfl, rfl⟩
  · intro hu hc
    have hu' : ¬(env.uploadOk = false) := by simp [hu]
    unfold download_samples
    rw [if_neg hne', if_neg hu', if_pos hc]
    exact ⟨rfl, rfl, rfl, rfl⟩

/-- Witness for C5: a failing upload yields the upload-failure result with
no collection command; a failing collection command yields the
script-failure result with no directory download. -/
theorem download_samples_abort_on_first_failure_witness :
    ((download_samples envUploadFails reqFlat).result =
       (false, "", "上传hash文件失败: " ++ envUploadFails.uploadErr) ∧
     (download_samples envUploadFails reqFlat).collectInvoked = false) ∧
    ((download_samples envCollectFails reqFlat).result =
       (false, "", "下载脚本执行失败: " ++ envCollectFails.collectErr) ∧
     (download_samples envCollectFails reqFlat).downloadDirInvoked = false) :=
  ⟨⟨(((download_samples_abort_on_first_failure envUploadFails reqFlat
        (by decide)).1) (by decide)).1,
    (((download_samples_abort_on_first_failure envUploadFails reqFlat
        (by decide)).1) (by decide)).2.2.1⟩,
   ⟨(((download_samples_abort_on_first_failure envCollectFails reqFlat
        (by decide)).2) (by decide) (by decide)).1,
    (((download_samples_abort_on_first_failure envCollectFails reqFlat
        (by decide)).2) (by decide) (by decide)).2.2.2⟩⟩

/-- Counterexample to C2 as stated: when `os.makedirs(local_output_dir)`
raises, the top-level `except` converts the exception into a failure result,
but the local temp hash-list file created at step 2 is NOT deleted on this
non-crash return path. -/
theorem download_samples_temp_leak_counterexample :
    (download_samples envMakedirsRaises reqFlat).result.1 = false ∧
    (download_samples envMakedirsRaises reqFlat).result.2.2 =
      "任务执行异常: Permission denied" ∧
    (download_samples envMakedirsRaises reqFlat).tempCreated = true ∧
    (download_samples envMakedirsRaises reqFlat).tempDeleted = false :=
  ⟨rfl, rfl, rfl, rfl⟩

/-- C2 (amended): on every return path where no local filesystem operation
raises (no `os.makedirs` error and no `shutil.move` error), the temp
hash-list file, if created, has been deleted by the time `download_samples`
returns; on the exception-converted paths the temp file leaks. -/
theorem download_samples_cleanup_on_explicit_paths (env : DownloadEnv)
    (req : DownloadRequest) (hmk : env.makedirsError = none)
    (hmv : env.moveError = none) :
    (download_samples env req).tempCreated = true →
    (download_samples env req).tempDeleted = true := by
  intro hcr
  by_cases hne : req.hash_list.isEmpty = true
  · unfold download_samples at hcr
    rw [if_pos hne] at hcr
    exact Bool.noConfusion hcr
  · unfold download_samples
    rw [if_neg hne]
    by_cases hu : env.uploadOk = false
    · rw [if_pos hu]
    · rw [if_neg hu]
      by_cases hc : env.collectRc ≠ 0
      · rw [if_pos hc]
      · rw [if_neg hc, hmk]
        cases hf : req.flat_output with
        | true =>
          rw [if_pos (rfl : (true : Bool) = true)]
          by_cases hd : env.downloadOk = false
          · rw [if_pos hd]
          · rw [if_neg hd, hmv]
        | false =>
          rw [if_neg (Bool.false_ne_true)]
          by_cases hd : env.downloadOk = false
          · rw [if_pos hd]
          · rw [if_neg hd]

/-- Witness for C2 (amended): in the all-success environment the temp file
is created and deleted. -/
theorem download_samples_cleanup_on_explicit_paths_witness :
    (download_samples happyEnv reqFlat).tempDeleted = true :=
  download_samples_cleanup_on_explicit_paths happyEnv reqFlat rfl rfl rfl

/-- C6: on a successful flat-output run, the entries are downloaded into a
fresh scratch directory which is afterwards removed, the returned
`local_path` is `local_output_dir` itself (the request's directory, given
an already-absolute path), every retrieved entry ends up in the output
directory, and every unrelated file already present (name distinct from
all retrieved entries) is still there. -/
theorem download_samples_flat_output_success (env : DownloadEnv)
    (req : DownloadRequest) (hne : req.hash_list ≠ [])
    (hflat : req.flat_output = true) (hup : env.uploadOk = true)
    (hrc : env.collectRc = 0) (hmk : env.makedirsError = none)
    (hdl : env.downloadOk = true) (hmv : env.moveError = none)
    (habs : env.abspath req.local_output_dir = req.local_output_dir) :
    (download_samples env req).scratchCreated = true ∧
    (download_samples env req).scratchRemoved = true ∧
    (download_samples env req).result = (true, req.local_output_dir, "") ∧
    (∀ f, f ∈ env.initialFiles → f ∉ env.listdirResult →
       f ∈ (download_samples env req).finalOutputFiles) ∧
    (∀ f, f ∈ env.listdirResult →
       f ∈ (download_samples env req).finalOutputFiles) := by
  have hne' : ¬(req.hash_list.isEmpty = true) := by
    cases hl : req.hash_list with
    | nil => exact absurd hl hne
    | cons a l => simp
  have hu' : ¬(env.uploadOk = false) := by simp [hup]
  have hc' : ¬(env.collectRc ≠ 0) := by simp [hrc]
  have hd' : ¬(env.downloadOk = false) := by simp [hdl]
  unfold download_samples
  rw [if_neg hne', if_neg hu', if_neg hc', hmk, hflat,
    if_pos (rfl : (true : Bool) = true), if_neg hd', hmv]
  refine ⟨rfl, rfl, ?_, ?_, ?_⟩
  · rw [habs]
  · intro f hf hnf
    have hmem : f ∈ env.initialFiles.filter
        (fun g => ! env.listdirResult.contains g) := by
      simp [List.mem_filter, hf, hnf]
    exact List.mem_append.mpr (Or.inr hmem)
  · intro f hf
    exact List.mem_append.mpr (Or.inl hf)

/-- Witness for C6: concrete successful flat-output run with an identity
`abspath`: the result path is the output directory, the pre-existing
unrelated file survives, and a retrieved entry is present. -/
theorem download_samples_flat_output_success_witness :
    (download_samples envIdAbspath reqFlat).result = (true, "/data/out", "") ∧
    "keep.txt" ∈ (download_samples envIdAbspath reqFlat).finalOutputFiles ∧
    "s1.bin" ∈ (download_samples envIdAbspath reqFlat).finalOutputFiles :=
  ⟨(download_samples_flat_output_success envIdAbspath reqFlat (by decide)
      rfl rfl rfl rfl rfl rfl rfl).2.2.1,
   (download_samples_flat_output_success envIdAbspath reqFlat (by decide)
      rfl rfl rfl rfl rfl rfl rfl).2.2.2.1 "keep.txt" (by decide) (by decide),
   (download_samples_flat_output_success envIdAbspath reqFlat (by decide)
      rfl rfl rfl rfl rfl rfl rfl).2.2.2.2 "s1.bin" (by decide)⟩

/-- C7: querying by rule name alone returns a duplicate-free list whose
elements are exactly the union of the parsed hash fragments of all entries
with the queried rule component; on the specification's two-entry example
it yields the set of the three hashes. -/
theorem get_sha256_list_rule_union (m : RuleMapping) (rule : String) :
    (get_sha256_list m rule none).Nodup ∧
    (∀ h, h ∈ get_sha256_list m rule none ↔
       ∃ e ∈ m, e.1.1 = rule ∧ h ∈ parseHashes e.2) ∧
    (get_sha256_list exampleMapping "RULE_A" none).toFinset =
      {"h1", "h2", "h3"} := by
  refine ⟨List.nodup_dedup _, ?_, by decide⟩
  intro h
  simp only [get_sha256_list, query, namespaceTruthy, Bool.false_eq_true,
    if_false, List.mem_dedup, List.mem_flatten, List.mem_map, List.mem_filter,
    decide_eq_true_eq]
  constructor
  · rintro ⟨l, ⟨⟨r, ⟨⟨e, ⟨⟨he, hrule⟩, hfe⟩⟩, hrl⟩⟩, hl⟩⟩
    subst hrl
    subst hfe
    exact ⟨e, he, hrule, hl⟩
  · rintro ⟨e, he, hrule, hl⟩
    exact ⟨parseHashes e.2, ⟨(e.1.1, e.1.2, parseHashes e.2),
      ⟨e, ⟨he, hrule⟩, rfl⟩, rfl⟩, hl⟩

/-- C8: for a rule name absent from the loaded mapping, `get_sha256_list`
returns the empty list (with or without a namespace argument), and the
`get_rule_sha256_list` tool then reports `success = false`, `count = 0`,
an empty hash list and a "No SHA256 hashes found" error naming the rule. -/
theorem get_rule_sha256_list_absent_rule (m : RuleMapping) (rule : String)
    (ns : Option String) (hab : ∀ e ∈ m, e.1.1 ≠ rule) :
    get_sha256_list m rule ns = [] ∧
    get_rule_sha256_list (some m) rule ns =
      { success := false, sha256_hashes := [], count := 0,
        error := some ("No SHA256 hashes found for rule: " ++ rule) } := by
  have hq : query m rule ns = [] := by
    unfold query
    cases ht : namespaceTruthy ns with
    | true =>
      have hf : dictFind m (rule, ns.getD "") = none := by
        unfold dictFind
        have hn : m.find? (fun e => decide (e.1 = (rule, ns.getD ""))) = none :=
          List.find?_eq_none.mpr (fun e he => by
            simp only [decide_eq_true_eq]
            intro hk
            exact hab e he (by rw [hk]))
        rw [hn]
        rfl
      rw [hf]
      rfl
    | false =>
      have h0 : m.filter (fun e => decide (e.1.1 = rule)) = [] :=
        List.filter_eq_nil_iff.mpr (fun e he => by simp [hab e he])
      rw [h0]
      rfl
  have hg : get_sha256_list m rule ns = [] := by
    unfold get_sha256_list
    rw [hq]
    rfl
  exact ⟨hg, by simp [get_rule_sha256_list, hg]⟩

/-- Witness for C8: the rule RULE_X is absent from the example mapping. -/
theorem get_rule_sha256_list_absent_rule_witness :
    get_sha256_list exampleMapping "RULE_X" none = [] ∧
    get_rule_sha256_list (some exampleMapping) "RULE_X" none =
      { success := false, sha256_hashes := [], count := 0,
        error := some ("No SHA256 hashes found for rule: " ++ "RULE_X") } :=
  get_rule_sha256_list_absent_rule exampleMapping "RULE_X" none (by decide)

theorem find?_map_update_self (m : RuleMapping) (k : String × String)
    (v : String) (hex : ∃ e ∈ m, e.1 = k) :
    (m.map (fun e => if e.1 = k then (k, v) else e)).find?
      (fun e => decide (e.1 = k)) = some (k, v) := by
  induction m with
  | nil =>
    obtain ⟨e, he, _⟩ := hex
    cases he
  | cons a m ih =>
    by_cases ha : a.1 = k
    · simp only [List.map_cons, if_pos ha]
      rw [List.find?_cons_of_pos]
      simp
    · simp only [List.map_cons, if_neg ha]
      rw [List.find?_cons_of_neg _ (by simp [ha])]
      apply ih
      obtain ⟨e, he, hk⟩ := hex
      cases List.mem_cons.mp he with
      | inl h => exact absurd (h ▸ hk) ha
      | inr h => exact ⟨e, h, hk⟩

theorem find?_map_update_other (m : RuleMapping) (k k' : String × String)
    (v : String) (hk : k' ≠ k) :
    (m.map (fun e => if e.1 = k then (k, v) else e)).find?
      (fun e => decide (e.1 = k')) = m.find? (fun e => decide (e.1 = k')) := by
  induction m with
  | nil => rfl
  | cons a m ih =>
    by_cases ha : a.1 = k
    · simp only [List.map_cons, if_pos ha]
      rw [List.find?_cons_of_neg _ (by simp; exact fun h => hk h.symm),
        List.find?_cons_of_neg _ (by simp [ha]; exact fun h => hk h.symm)]
      exact ih
    · simp only [List.map_cons, if_neg ha]
      by_cases ha' : a.1 = k'
      · rw [List.find?_cons_of_pos _ (by simp [ha']),
          List.find?_cons_of_pos _ (by simp [ha'])]
      · rw [List.find?_cons_of_neg _ (by simp [ha']), ih,
          List.find?_cons_of_neg _ (by simp [ha'])]

theorem dictFind_dictInsert (m : RuleMapping) (k k' : String × String)
    (v : String) :
    dictFind (dictInsert m k v) k' =
      if k' = k then some v else dictFind m k' := by
  unfold dictInsert
  by_cases hany : m.any (fun e => decide (e.1 = k)) = true
  · rw [if_pos hany]
    by_cases hk : k' = k
    · subst hk
      rw [if_pos rfl]
      obtain ⟨e0, he0, hk0⟩ := List.any_eq_true.mp hany
      unfold dictFind
      rw [find?_map_update_self m k' v ⟨e0, he0, by simpa using hk0⟩]
      rfl
    · rw [if_neg hk]
      unfold dictFind
      rw [find?_map_update_other m k k' v hk]
  · rw [if_neg hany]
    have hnone : m.find? (fun e => decide (e.1 = k)) = none :=
      List.find?_eq_none.mpr (fun e he hpe => hany (List.any_eq_true.mpr ⟨e, he, hpe⟩))
    by_cases hk : k' = k
    · subst hk
      rw [if_pos rfl]
      unfold dictFind
      rw [List.find?_append, hnone]
      simp
    · rw [if_neg hk]
      unfold dictFind
      rw [List.find?_append]
      have h1 : [(k, v)].find? (fun e => decide (e.1 = k')) = none := by
        simp
        exact fun h => hk h.symm
      rw [h1]
      simp

theorem dictInsert_keys_nodup (m : RuleMapping) (k : String × String)
    (v : String) (h : (m.map (fun e => e.1)).Nodup) :
    ((dictInsert m k v).map (fun e => e.1)).Nodup := by
  unfold dictInsert
  by_cases hany : m.any (fun e => decide (e.1 = k)) = true
  · rw [if_pos hany, List.map_map]
    have heq : m.map ((fun e => e.1) ∘ (fun e => if e.1 = k then (k, v) else e)) =
        m.map (fun e => e.1) :=
      List.map_congr_left (fun e _ => by
        by_cases he : e.1 = k <;> simp [he])
    rw [heq]
    exact h
  · rw [if_neg hany, List.map_append]
    have hk : k ∉ m.map (fun e => e.1) := by
      intro hmem
      obtain ⟨e, he, hke⟩ := List.mem_map.mp hmem
      exact hany (List.any_eq_true.mpr ⟨e, he, by simp [hke]⟩)
    simp only [List.map_cons, List.map_nil]
    refine List.Nodup.append h (List.nodup_singleton _) ?_
    intro a ha hb
    rw [List.mem_singleton] at hb
    exact hk (hb ▸ ha)

theorem lastValueFor_cons (r : CsvRow) (rows : List CsvRow) (k : String × String) :
    lastValueFor (r :: rows) k =
      match lastValueFor rows k with
      | some v => some v
      | none => if (r.rule, r.ns) = k then some r.sha256List else none := by
  unfold lastValueFor
  by_cases hr : (r.rule, r.ns) = k
  · rw [List.filter_cons_of_pos (by simp [hr])]
    cases hl : rows.filter (fun x => decide ((x.rule, x.ns) = k)) with
    | nil => simp [hr]
    | cons b l =>
      rw [List.getLast?_cons_cons]
      cases hx : (b :: l).getLast? with
      | some x => rfl
      | none =>
        rw [List.getLast?_eq_none_iff] at hx
        cases hx
  · rw [List.filter_cons_of_neg (by simp [hr])]
    cases hls : (rows.filter (fun x => decide ((x.rule, x.ns) = k))).getLast? with
    | some x => rfl
    | none => simp [hr]

theorem load_mapping_from (rows : List CsvRow) :
    ∀ m : RuleMapping, (m.map (fun e => e.1)).Nodup →
      (((rows.foldl
          (fun m row => dictInsert m (row.rule, row.ns) row.sha256List) m).map
            (fun e => e.1)).Nodup ∧
       ∀ k, dictFind (rows.foldl
          (fun m row => dictInsert m (row.rule, row.ns) row.sha256List) m) k =
         match lastValueFor rows k with
         | some v => some v
         | none => dictFind m k) := by
  induction rows with
  | nil =>
    intro m hm
    refine ⟨hm, fun k => ?_⟩
    have h0 : lastValueFor [] k = none := rfl
    rw [List.foldl_nil, h0]
  | cons r rows ih =>
    intro m hm
    have hm' := dictInsert_keys_nodup m (r.rule, r.ns) r.sha256List hm
    obtain ⟨ihn, ihf⟩ := ih (dictInsert m (r.rule, r.ns) r.sha256List) hm'
    refine ⟨by rw [List.foldl_cons]; exact ihn, fun k => ?_⟩
    rw [List.foldl_cons, ihf k, lastValueFor_cons, dictFind_dictInsert]
    cases hlv : lastValueFor rows k with
    | some v => rfl
    | none =>
      by_cases hk : k = (r.rule, r.ns)
      · rw [if_pos hk, if_pos (hk.symm)]
      · rw [if_neg hk, if_neg (fun h => hk h.symm)]

/-- C10: the CSV loader is last-write-wins: after `_load_mapping`, the
lookup of any `(rule, namespace)` key yields the `sha256List` value of the
final row in file order bearing that key, every key of the loaded mapping
is unique, and on a row list with a duplicated key the duplicate's last
value is the one kept. -/
theorem load_mapping_last_write_wins (rows : List CsvRow) (k : String × String) :
    dictFind (load_mapping rows) k = lastValueFor rows k ∧
    ((load_mapping rows).map (fun e => e.1)).Nodup ∧
    dictFind (load_mapping dupRows) ("RULE_A", "ns1") = some "h3" := by
  obtain ⟨hn, hf⟩ := load_mapping_from rows [] (by simp)
  refine ⟨?_, hn, by decide⟩
  unfold load_mapping
  rw [hf k]
  cases hlv : lastValueFor rows k with
  | some v => rfl
  | none => rfl
